import Mathlib

/-!
Verification of the libprocess HTTP layer
(3rdparty/libprocess/include/process/http.hpp).

C++ strings are byte strings, embedded here as lists of byte values
(each expected to lie below 256). Where the repository ships only the
declaration of an operation (its implementation lives outside the given
sources), the definition is modelled from the specification and says so
in its doc comment.
-/

namespace LibprocessHttp

/-- A C++ `std::string`: a sequence of bytes. -/
abbrev Str := List Nat

/-- Embed an ASCII Lean string literal as a byte string. -/
def str (s : String) : Str := s.data.map Char.toNat

/-- `stringify(n)`: decimal representation of a number as a byte string. -/
def stringifyNat (n : Nat) : Str := str (toString n)

/-- C `::tolower` in the C locale, on a byte: maps A-Z to a-z,
leaves every other byte unchanged. -/
def tolowerByte (c : Nat) : Nat :=
  if 65 ≤ c ∧ c ≤ 90 then c + 32 else c

/-- `boost::hash_combine(seed, v)` on a 64-bit `size_t`:
`seed ^= v + 0x9e3779b9 + (seed << 6) + (seed >> 2)`, all arithmetic
modulo 2^64 (boost is an external collaborator; only its determinism
matters to the claims below). -/
def hashCombine (seed v : Nat) : Nat :=
  seed ^^^ ((v + 0x9e3779b9 + seed * 64 + seed / 4) % (2 ^ 64))

/-- `CaseInsensitiveHash::operator()` (http.hpp lines 115-125):
starts from seed 0 and hash-combines `tolower(c)` for each byte. -/
def caseInsensitiveHash (key : Str) : Nat :=
  key.foldl (fun seed c => hashCombine seed (tolowerByte c)) 0

/-- `CaseInsensitiveEqual::operator()` (http.hpp lines 128-142):
equal sizes and pointwise equal `tolower` images. -/
def caseInsensitiveEqual : Str → Str → Bool
  | [], [] => true
  | a :: as, b :: bs =>
    (tolowerByte a == tolowerByte b) && caseInsensitiveEqual as bs
  | _, _ => false

/-- `Headers` (http.hpp line 192): a map keyed case-insensitively,
embedded as an association list in insertion order. -/
abbrev Headers := List (Str × Str)

/-- `headers[k] = v` on the case-insensitive hashmap: replace the first
entry whose key is case-insensitively equal to `k`, else append. -/
def headersInsert (h : Headers) (k v : Str) : Headers :=
  match h with
  | [] => [(k, v)]
  | (k0, v0) :: rest =>
    if caseInsensitiveEqual k0 k then (k0, v) :: rest
    else (k0, v0) :: headersInsert rest k v

/-- Lookup in the case-insensitive hashmap. -/
def headersGet (h : Headers) (k : Str) : Option Str :=
  match h with
  | [] => none
  | (k0, v0) :: rest =>
    if caseInsensitiveEqual k0 k then some v0 else headersGet rest k

/-- `net::IP`, an external type; only its presence matters here. -/
abbrev IPAddr := Nat

/-- `URL` (http.hpp lines 68-109): scheme, authority as domain or ip
(optional each), port, path, query, fragment. -/
structure URL where
  scheme : Option Str
  domain : Option Str
  ip : Option IPAddr
  port : Option Nat
  path : Str
  query : List (Str × Str)
  fragment : Option Str
deriving DecidableEq

/-- `URL()` (http.hpp line 70): default construction; every `Option`
member is `None`, `path` is the empty string, `query` is empty. -/
def urlDefault : URL :=
  { scheme := none, domain := none, ip := none, port := none
    path := [], query := [], fragment := none }

/-- The domain-based constructor (http.hpp lines 72-84): sets `scheme`,
`domain`, `port`, `path`, `query`, `fragment`; `ip` is left unset. -/
def urlOfDomain (scheme domain : Str) (port : Nat) (path : Str)
    (query : List (Str × Str)) (fragment : Option Str) : URL :=
  { scheme := some scheme, domain := some domain, ip := none,
    port := some port, path := path, query := query, fragment := fragment }

/-- The IP-based constructor (http.hpp lines 86-98): sets `scheme`,
`ip`, `port`, `path`, `query`, `fragment`; `domain` is left unset. -/
def urlOfIP (scheme : Str) (ip : IPAddr) (port : Nat) (path : Str)
    (query : List (Str × Str)) (fragment : Option Str) : URL :=
  { scheme := some scheme, domain := none, ip := some ip,
    port := some port, path := path, query := query, fragment := fragment }

/-- `Status::OK` = 200 (RFC 2616; the numeric constants are declared in
http.hpp lines 145-189 and defined outside the given sources). -/
def statusOK : Nat := 200

/-- `Status::UNAUTHORIZED` = 401 (RFC 2616). -/
def statusUnauthorizedCode : Nat := 401

/-- `Status::METHOD_NOT_ALLOWED` = 405 (RFC 2616). -/
def statusMethodNotAllowedCode : Nat := 405

/-- Modelled from the spec: `Status::string(code)` renders the status
line text for a code (its reason-phrase table lives outside the given
sources; no claim inspects the text, so only the code is rendered). -/
def statusStringOf (code : Nat) : Str := stringifyNat code

/-- The tag of `Response::type` (http.hpp lines 441-447). -/
inductive ResponseType where
  | NONE
  | BODY
  | PATH
  | PIPE
deriving DecidableEq

/-- `Response` (http.hpp lines 392-454): status line text, headers, the
tag, and the three payload fields (`reader` is a handle onto a Pipe,
kept abstract as an identifier). -/
structure Response where
  status : Str
  headers : Headers
  type : ResponseType
  body : Str
  path : Str
  reader : Option Nat
  code : Nat
deriving DecidableEq

/-- `Response(code)` (http.hpp lines 398-402): tag NONE, no headers,
status text from the code. -/
def responseOfCode (code : Nat) : Response :=
  { status := statusStringOf code, headers := [], type := .NONE,
    body := [], path := [], reader := none, code := code }

/-- `Response(body, code)` (http.hpp lines 404-413): tag BODY, stores
`body`, and sets `Content-Length` to `stringify(body.size())`. -/
def responseOfBody (body : Str) (code : Nat) : Response :=
  { status := statusStringOf code,
    headers := headersInsert [] (str "Content-Length")
      (stringifyNat body.length),
    type := .BODY, body := body, path := [], reader := none, code := code }

/-- Assignment of a `const char*` to a `std::string`: the bytes up to
(not including) the first NUL byte. Models `body = out.str().data()`
in the JSON `OK` constructor (http.hpp line 487). -/
def takeUntilNul (s : Str) : Str := s.takeWhile (fun b => b ≠ 0)

/-- `OK(const JSON::Value& value, jsonp)` (http.hpp lines 466-488).
`serialized` stands for the bytes `out << value` produces (JSON
rendering lives outside the given sources). The constructor builds
`out` as `jsonp(serialized);` when `jsonp` is present, sets
`Content-Type`, sets `Content-Length` to `out.str().size()`, and then
stores `out.str().data()` as the body. -/
def okJson (serialized : Str) (jsonp : Option Str) : Response :=
  let base := responseOfCode statusOK
  let out : Str :=
    match jsonp with
    | some j => j ++ str "(" ++ serialized ++ str ");"
    | none => serialized
  let h0 : Headers :=
    match jsonp with
    | some _ => headersInsert base.headers (str "Content-Type")
        (str "text/javascript")
    | none => headersInsert base.headers (str "Content-Type")
        (str "application/json")
  let h1 := headersInsert h0 (str "Content-Length")
    (stringifyNat out.length)
  { base with type := .BODY, headers := h1, body := takeUntilNul out }

/-- `strings::join(sep, xs)`: the elements interleaved with `sep`. -/
def joinSep (sep : Str) : List Str → Str
  | [] => []
  | [x] => x
  | x :: y :: rest => x ++ sep ++ joinSep sep (y :: rest)

/-- `Unauthorized(challenges)` (http.hpp lines 522-530): status 401 with
`WWW-Authenticate` set to the joined challenges. -/
def unauthorizedOfChallenges (challenges : List Str) : Response :=
  let r := responseOfCode statusUnauthorizedCode
  let v := joinSep (str ", ") challenges
  { r with headers := headersInsert r.headers (str "WWW-Authenticate") v }

/-- `Unauthorized(challenges, body)` (http.hpp lines 532-542): status
401 with a body, plus `WWW-Authenticate`. -/
def unauthorizedOfChallengesBody (challenges : List Str) (body : Str) :
    Response :=
  let r := responseOfBody body statusUnauthorizedCode
  let v := joinSep (str ", ") challenges
  { r with headers := headersInsert r.headers (str "WWW-Authenticate") v }

/-- `Unauthorized(realm)` (http.hpp lines 546-548): delegates to the
challenge constructor with a single Basic-realm challenge. -/
def unauthorizedOfRealm (realm : Str) : Response :=
  unauthorizedOfChallenges [str "Basic realm=\"" ++ realm ++ str "\""]

/-- `Unauthorized(realm, body)` (http.hpp lines 552-555): delegates to
the challenge-and-body constructor. -/
def unauthorizedOfRealmBody (realm : Str) (body : Str) : Response :=
  unauthorizedOfChallengesBody
    [str "Basic realm=\"" ++ realm ++ str "\""] body

/-- `MethodNotAllowed(allowedMethods)` (http.hpp lines 582-587): status
405 with `Allow` set to the joined method list. -/
def methodNotAllowedOf (allowedMethods : List Str) : Response :=
  let r := responseOfCode statusMethodNotAllowedCode
  let v := joinSep (str ", ") allowedMethods
  { r with headers := headersInsert r.headers (str "Allow") v }

/-- `MethodNotAllowed(allowedMethods, body)` (http.hpp lines 589-595):
status 405 with a body, plus `Allow`. -/
def methodNotAllowedOfBody (allowedMethods : List Str) (body : Str) :
    Response :=
  let r := responseOfBody body statusMethodNotAllowedCode
  let v := joinSep (str ", ") allowedMethods
  { r with headers := headersInsert r.headers (str "Allow") v }

/-- `Pipe::Reader::State` (http.hpp lines 300-304). -/
inductive ReadEndState where
  | OPEN
  | CLOSED
deriving DecidableEq

/-- `Pipe::Writer::State` (http.hpp lines 340-345). -/
inductive WriteEndState where
  | OPEN
  | CLOSED
  | FAILED
deriving DecidableEq

/-- The settlement of a previously pending read promise: either a chunk
(the empty chunk signalling end-of-file) or a failure. -/
inductive ReadSettle where
  | chunk (s : Str)
  | failed (msg : Str)
deriving DecidableEq

/-- `Pipe::Data` (http.hpp lines 361-386): the two end states, the FIFO
queue of pending read promises (by identifier), the FIFO queue of
unread non-empty chunks, the reader-closure notification promise
(`true` once settled), and the recorded failure reason. `nextPromise`
supplies fresh promise identifiers and `settledReads` records, in
settlement order, how pending read promises were resolved. -/
structure PipeData where
  readEnd : ReadEndState
  writeEnd : WriteEndState
  reads : List Nat
  writes : List Str
  readerClosure : Bool
  failure : Option Str
  nextPromise : Nat
  settledReads : List (Nat × ReadSettle)
deriving DecidableEq

/-- `Pipe()` (http.hpp lines 352, 363-365): both ends OPEN, everything
else empty. -/
def freshPipe : PipeData :=
  { readEnd := .OPEN, writeEnd := .OPEN, reads := [], writes := [],
    readerClosure := false, failure := none, nextPromise := 0,
    settledReads := [] }

/-- Modelled from the spec: `Pipe::Writer::write` (declared http.hpp
lines 313-317; implementation outside the given sources). Returns
false with no effect when either end is no longer OPEN; an empty write
returns true with no effect; otherwise the chunk settles the oldest
pending read if one exists, else it is queued; returns true. -/
def pipeWrite (d : PipeData) (s : Str) : Bool × PipeData :=
  if d.readEnd = .CLOSED ∨ d.writeEnd ≠ .OPEN then (false, d)
  else if s = [] then (true, d)
  else
    match d.reads with
    | p :: rest =>
      (true, { d with
               reads := rest,
               settledReads := d.settledReads ++ [(p, .chunk s)] })
    | [] => (true, { d with writes := d.writes ++ [s] })

/-- Modelled from the spec: `Pipe::Writer::close` (declared http.hpp
lines 319-322; implementation outside the given sources). Returns
false if the write end is not OPEN; otherwise sets it CLOSED and, when
a read is pending and no chunks are queued, settles the oldest pending
read with the empty chunk (end-of-file). -/
def pipeWriterClose (d : PipeData) : Bool × PipeData :=
  if d.writeEnd ≠ .OPEN then (false, d)
  else
    match d.reads, d.writes with
    | p :: rest, [] =>
      (true, { d with
               writeEnd := .CLOSED,
               reads := rest,
               settledReads := d.settledReads ++ [(p, .chunk [])] })
    | _, _ => (true, { d with writeEnd := .CLOSED })

/-- Modelled from the spec: `Pipe::Writer::fail` (declared http.hpp
lines 324-327; implementation outside the given sources). Returns
false if the write end is not OPEN; otherwise sets it FAILED, records
the reason, discards queued unread chunks, and settles the oldest
pending read, if any, with the failure. -/
def pipeWriterFail (d : PipeData) (msg : Str) : Bool × PipeData :=
  if d.writeEnd ≠ .OPEN then (false, d)
  else
    match d.reads with
    | p :: rest =>
      (true, { d with
               writeEnd := .FAILED,
               failure := some msg,
               writes := [],
               reads := rest,
               settledReads := d.settledReads ++ [(p, .failed msg)] })
    | [] =>
      (true, { d with
               writeEnd := .FAILED,
               failure := some msg,
               writes := [] })

/-- The immediate outcome of `Pipe::Reader::read`: an available chunk
(the empty chunk signalling end-of-file), an immediate failure, or a
freshly registered pending promise. -/
inductive ReadOutcome where
  | chunk (s : Str)
  | failed (msg : Str)
  | pending (id : Nat)
deriving DecidableEq

/-- Modelled from the spec: `Pipe::Reader::read` (declared http.hpp
lines 282-286; implementation outside the given sources). Fails when
the read end is not OPEN; else pops the oldest queued chunk if any;
else returns the empty chunk when the write end is CLOSED
(end-of-stream, state unchanged, hence repeatable); else fails with
the recorded reason when the write end is FAILED; else registers a new
pending read promise. -/
def pipeRead (d : PipeData) : ReadOutcome × PipeData :=
  if d.readEnd ≠ .OPEN then (.failed (str "read end closed"), d)
  else
    match d.writes with
    | c :: rest => (.chunk c, { d with writes := rest })
    | [] =>
      match d.writeEnd with
      | .CLOSED => (.chunk [], d)
      | .FAILED =>
        (.failed ((d.failure).getD (str "failed")), d)
      | .OPEN =>
        (.pending d.nextPromise,
         { d with
           reads := d.reads ++ [d.nextPromise],
           nextPromise := d.nextPromise + 1 })

/-- Modelled from the spec: `Pipe::Reader::close` (declared http.hpp
lines 288-291; implementation outside the given sources). Returns
false if the read end is not OPEN; otherwise sets it CLOSED, drops
queued unread chunks, and settles the reader-closure notification when
the write end is still OPEN. -/
def pipeReaderClose (d : PipeData) : Bool × PipeData :=
  if d.readEnd ≠ .OPEN then (false, d)
  else
    (true, { d with
             readEnd := .CLOSED,
             writes := [],
             readerClosure :=
               if d.writeEnd = .OPEN then true else d.readerClosure })

/-- `Pipe::Writer::readerClosed` (declared http.hpp lines 329-332):
whether the reader-closure notification future has settled. -/
def pipeReaderClosedSettled (d : PipeData) : Bool := d.readerClosure

/-- One operation on a Pipe, used to quantify over everything that can
happen to its state. -/
inductive PipeOp where
  | write (s : Str)
  | writerClose
  | writerFail (msg : Str)
  | readOp
  | readerClose
deriving DecidableEq

/-- The state transition of each Pipe operation. -/
def pipeApply (op : PipeOp) (d : PipeData) : PipeData :=
  match op with
  | .write s => (pipeWrite d s).2
  | .writerClose => (pipeWriterClose d).2
  | .writerFail msg => (pipeWriterFail d msg).2
  | .readOp => (pipeRead d).2
  | .readerClose => (pipeReaderClose d).2

/-- Perform a sequence of writes, keeping only the final state. -/
def writeAll (d : PipeData) (cs : List Str) : PipeData :=
  match cs with
  | [] => d
  | c :: rest => writeAll (pipeWrite d c).2 rest

/-- Perform `n` reads in sequence, collecting the outcomes. -/
def readN (n : Nat) (d : PipeData) : List ReadOutcome × PipeData :=
  match n with
  | 0 => ([], d)
  | n + 1 =>
    let r := pipeRead d
    let rs := readN n r.2
    (r.1 :: rs.1, rs.2)

/-- The lifecycle state of a `Connection` (spec section 4.4). -/
inductive ConnState where
  | CONNECTED
  | DISCONNECTED
deriving DecidableEq

/-- The failure reason used when a connection closes. -/
def connectionClosedMsg : Str := str "Connection closed"

/-- Modelled from the spec: the shared state behind `Connection`
(declared http.hpp lines 742-777; `Connection::Data` and all member
implementations live outside the given sources). `pending` is the FIFO
queue of pending response completions, one per in-flight send,
identified by send order (`nextSend` counts sends that were accepted).
`resolved` records, in resolution order, which send was resolved with
which response (responses numbered by arrival order through
`nextResponse`). `failedSends` records futures failed with a reason,
`disconnectedSettled` whether the `disconnected()` future has settled,
and `socketWrites` the requests actually serialized onto the socket. -/
structure ConnData where
  state : ConnState
  pending : List Nat
  nextSend : Nat
  resolved : List (Nat × Nat)
  nextResponse : Nat
  failedSends : List (Nat × Str)
  disconnectedSettled : Bool
  socketWrites : List Nat
deriving DecidableEq

/-- A freshly connected `Connection`. -/
def freshConn : ConnData :=
  { state := .CONNECTED, pending := [], nextSend := 0, resolved := [],
    nextResponse := 0, failedSends := [], disconnectedSettled := false,
    socketWrites := [] }

/-- The immediate result of `Connection::send`: a queued pending future
(identified by send order) or an immediate failure. -/
inductive SendResult where
  | queued (id : Nat)
  | failedNow (reason : Str)
deriving DecidableEq

/-- Modelled from the spec: `Connection::send` (declared http.hpp lines
747-754; implementation outside the given sources). After
disconnection a send fails immediately with a ConnectionClosed error,
queues nothing and writes nothing to the socket; otherwise the request
is serialized onto the socket and a new pending completion is appended
to the FIFO queue. -/
def connSend (d : ConnData) : SendResult × ConnData :=
  match d.state with
  | .DISCONNECTED => (.failedNow connectionClosedMsg, d)
  | .CONNECTED =>
    (.queued d.nextSend,
     { d with
       pending := d.pending ++ [d.nextSend],
       nextSend := d.nextSend + 1,
       socketWrites := d.socketWrites ++ [d.nextSend] })

/-- Modelled from the spec: inbound response processing (spec section
4.4) pops the oldest pending entry and resolves it with the next
response parsed from the socket, in arrival order. -/
def connReceiveResponse (d : ConnData) : ConnData :=
  match d.pending with
  | [] => d
  | p :: rest =>
    { d with
      pending := rest,
      resolved := d.resolved ++ [(p, d.nextResponse)],
      nextResponse := d.nextResponse + 1 }

/-- Modelled from the spec: `Connection::disconnect` (declared http.hpp
lines 756-759; implementation outside the given sources). Closes the
socket, transitions to DISCONNECTED, fails every still-pending
completion, in FIFO order, with the same ConnectionClosed reason, and
settles the `disconnected()` future. -/
def connDisconnect (d : ConnData) : ConnData :=
  { d with
    state := .DISCONNECTED,
    pending := [],
    failedSends :=
      d.failedSends ++ d.pending.map (fun p => (p, connectionClosedMsg)),
    disconnectedSettled := true }

/-- An externally visible event on a Connection: a caller issuing a
send, or one full response arriving from the socket. -/
inductive ConnEvent where
  | send
  | response
deriving DecidableEq

/-- The state transition of each Connection event. -/
def connStep (d : ConnData) (e : ConnEvent) : ConnData :=
  match e with
  | .send => (connSend d).2
  | .response => connReceiveResponse d

/-- Run a trace of Connection events from a state. -/
def connRun (d : ConnData) : List ConnEvent → ConnData
  | [] => d
  | e :: es => connRun (connStep d e) es

/-- A trace is well formed when every response arrives while some send
is still pending (an HTTP server produces exactly one response per
received request, so responses never outnumber sends). -/
def wfTrace (d : ConnData) : List ConnEvent → Bool
  | [] => true
  | e :: es =>
    (match e with
     | .send => true
     | .response => !d.pending.isEmpty) && wfTrace (connStep d e) es

/-- `strings::tokenize(s, "/")` restricted to one separator: split on
the byte 47 and drop empty tokens. -/
def splitSlash : Str → List Str
  | [] => [[]]
  | c :: rest =>
    match splitSlash rest with
    | [] => [[]]
    | t :: ts => if c = 47 then [] :: t :: ts else (c :: t) :: ts

/-- Tokenize a path into its non-empty segments. -/
def tokenize (s : Str) : List Str :=
  (splitSlash s).filter (fun t => t ≠ [])

/-- Whether a pattern segment is of the braced `\x7bname\x7d` form. -/
def isBraced (key : Str) : Bool :=
  match key with
  | [] => false
  | c :: rest => c = 123 && rest ≠ [] && rest.getLastD 0 = 125

/-- The name inside a braced pattern segment. -/
def stripBraces (key : Str) : Str := (key.drop 1).dropLast

/-- Insertion into the (case-sensitive) result hashmap of
`path::parse`: replace the entry with this key, else append. -/
def mapInsert (m : List (Str × Str)) (k v : Str) : List (Str × Str) :=
  match m with
  | [] => [(k, v)]
  | (k0, v0) :: rest =>
    if k0 = k then (k0, v) :: rest
    else (k0, v0) :: mapInsert rest k v

/-- Modelled from the spec: the segment walk of `path::parse` (declared
http.hpp lines 695-697; implementation outside the given sources).
Walks pattern keys and path segments in lockstep; a braced key
captures the segment under the inner name; a literal key must equal
the segment and is also emitted under its own name; the walk stops
with success as soon as either list is exhausted; a differing literal
is an error (carrying the offending key). -/
def parseSegs (acc : List (Str × Str)) :
    List Str → List Str → Except Str (List (Str × Str))
  | [], _ => .ok acc
  | _ :: _, [] => .ok acc
  | key :: keys, seg :: segs =>
    if isBraced key then parseSegs (mapInsert acc (stripBraces key) seg) keys segs
    else if key = seg then parseSegs (mapInsert acc key seg) keys segs
    else .error key

/-- Modelled from the spec: `path::parse(pattern, path)` tokenizes both
arguments on `/` and walks them segment by segment. -/
def parsePath (pattern path : Str) : Except Str (List (Str × Str)) :=
  parseSegs [] (tokenize pattern) (tokenize path)

/-- The RFC 3986 unreserved byte set: ALPHA, DIGIT, `-`, `.`, `_`, `~`. -/
def isUnreserved (b : Nat) : Bool :=
  (65 ≤ b && b ≤ 90) || (97 ≤ b && b ≤ 122) || (48 ≤ b && b ≤ 57) ||
    b = 45 || b = 46 || b = 95 || b = 126

/-- The upper-case hex digit for a value below 16. -/
def hexDigitUpper (n : Nat) : Nat := if n < 10 then 48 + n else 55 + n

/-- Modelled from the spec: `encode(s)` (declared http.hpp lines
702-704; implementation outside the given sources) percent-encodes
every octet outside the RFC 3986 unreserved set. -/
def encode : Str → Str
  | [] => []
  | b :: rest =>
    (if isUnreserved b then [b]
     else [37, hexDigitUpper (b / 16), hexDigitUpper (b % 16)]) ++
      encode rest

/-- The value of a hex digit byte, if it is one. -/
def hexValue (c : Nat) : Option Nat :=
  if 48 ≤ c ∧ c ≤ 57 then some (c - 48)
  else if 65 ≤ c ∧ c ≤ 70 then some (c - 55)
  else if 97 ≤ c ∧ c ≤ 102 then some (c - 87)
  else none

/-- Modelled from the spec: `decode(s)` (declared http.hpp lines
707-710; implementation outside the given sources) reverses the
percent-encoding and fails with a MalformedEncoding error when a `%`
is not followed by two valid hex digits. -/
def decode : Str → Except Str Str
  | [] => .ok []
  | b :: rest =>
    if b = 37 then
      match rest with
      | h :: l :: rest2 =>
        match hexValue h, hexValue l with
        | some hv, some lv =>
          (decode rest2).map (fun t => (16 * hv + lv) :: t)
        | _, _ => .error (str "Malformed % escape")
      | _ => .error (str "Malformed % escape")
    else (decode rest).map (fun t => b :: t)

/-- The pipelining invariant of a Connection: the completions resolved
so far pair the k-th send with the k-th response for every k, and the
pending queue holds exactly the sends not yet resolved, in send
order. -/
def connInv (d : ConnData) : Prop :=
  d.resolved = (List.range d.nextResponse).map (fun i => (i, i)) ∧
  d.pending = List.range' d.nextResponse (d.nextSend - d.nextResponse) ∧
  d.nextResponse ≤ d.nextSend

deriving instance DecidableEq for Except

theorem caseInsensitiveEqual_refl (s : Str) :
    caseInsensitiveEqual s s = true := by
  induction s with
  | nil => rfl
  | cons c rest ih => simp [caseInsensitiveEqual, ih]

theorem headersGet_headersInsert (h : Headers) (k v : Str) :
    headersGet (headersInsert h k v) k = some v := by
  induction h with
  | nil => simp [headersInsert, headersGet, caseInsensitiveEqual_refl]
  | cons kv rest ih =>
    by_cases hk : caseInsensitiveEqual kv.1 k = true
    · simp [headersInsert, headersGet, hk]
    · simp [headersInsert, headersGet, hk, ih]

/-- Claim C9: every URL constructor (default, domain-based, IP-based)
produces a URL in which at most one of `domain` and `ip` is set. -/
theorem claim_C9_url_domain_ip_exclusive :
    (¬(urlDefault.domain.isSome = true ∧ urlDefault.ip.isSome = true)) ∧
    (∀ scheme domain port path query fragment,
      ¬((urlOfDomain scheme domain port path query fragment).domain.isSome
            = true ∧
        (urlOfDomain scheme domain port path query fragment).ip.isSome
            = true)) ∧
    (∀ scheme ip port path query fragment,
      ¬((urlOfIP scheme ip port path query fragment).domain.isSome
            = true ∧
        (urlOfIP scheme ip port path query fragment).ip.isSome
            = true)) := by
  refine ⟨?_, ?_, ?_⟩
  · simp [urlDefault]
  · intro scheme domain port path query fragment
    simp [urlOfDomain]
  · intro scheme ip port path query fragment
    simp [urlOfIP]

/-- Claim C8: every `Unauthorized` constructor sets the
`WWW-Authenticate` header and every `MethodNotAllowed` constructor
sets the `Allow` header. -/
theorem claim_C8_mandatory_headers :
    (∀ challenges,
      (headersGet (unauthorizedOfChallenges challenges).headers
        (str "WWW-Authenticate")).isSome = true) ∧
    (∀ challenges body,
      (headersGet (unauthorizedOfChallengesBody challenges body).headers
        (str "WWW-Authenticate")).isSome = true) ∧
    (∀ realm,
      (headersGet (unauthorizedOfRealm realm).headers
        (str "WWW-Authenticate")).isSome = true) ∧
    (∀ realm body,
      (headersGet (unauthorizedOfRealmBody realm body).headers
        (str "WWW-Authenticate")).isSome = true) ∧
    (∀ allowedMethods,
      (headersGet (methodNotAllowedOf allowedMethods).headers
        (str "Allow")).isSome = true) ∧
    (∀ allowedMethods body,
      (headersGet (methodNotAllowedOfBody allowedMethods body).headers
        (str "Allow")).isSome = true) := by
  refine ⟨?_, ?_, ?_, ?_, ?_, ?_⟩ <;> intros <;>
    simp [unauthorizedOfChallenges, unauthorizedOfChallengesBody,
      unauthorizedOfRealm, unauthorizedOfRealmBody,
      methodNotAllowedOf, methodNotAllowedOfBody,
      headersGet_headersInsert]

/-- Claim C4 (code bug): in the JSON `OK` constructor the assignment
`body = out.str().data()` truncates the stored body at the first NUL
byte, while `Content-Length` is computed from the full serialized
string. With jsonp bytes `f NUL g` and serialized value `1`, the
response has tag BODY, a `Content-Length` of `7`, but a stored body of
one byte. -/
theorem claim_C4_content_length_truncated_body :
    (okJson (str "1") (some [102, 0, 103])).type = ResponseType.BODY ∧
    headersGet (okJson (str "1") (some [102, 0, 103])).headers
        (str "Content-Length") = some (str "7") ∧
    (okJson (str "1") (some [102, 0, 103])).body = [102] ∧
    (okJson (str "1") (some [102, 0, 103])).body.length = 1 ∧
    (∀ body code,
      headersGet (responseOfBody body code).headers (str "Content-Length")
        = some (stringifyNat (responseOfBody body code).body.length)) := by
  refine ⟨by decide, by decide, by decide, by decide, ?_⟩
  intro body code
  simp [responseOfBody, headersGet_headersInsert]

theorem foldl_hashCombine_eq (a b : Str)
    (h : caseInsensitiveEqual a b = true) (seed : Nat) :
    a.foldl (fun s c => hashCombine s (tolowerByte c)) seed =
      b.foldl (fun s c => hashCombine s (tolowerByte c)) seed := by
  induction a generalizing b seed with
  | nil =>
    cases b with
    | nil => rfl
    | cons c rest => simp [caseInsensitiveEqual] at h
  | cons c rest ih =>
    cases b with
    | nil => simp [caseInsensitiveEqual] at h
    | cons c2 rest2 =>
      simp only [caseInsensitiveEqual, Bool.and_eq_true, beq_iff_eq] at h
      simp only [List.foldl_cons, h.1]
      exact ih rest2 h.2 _

/-- Claim C10: the case-insensitive hash is consistent with the
case-insensitive equality used by the `Headers` map. -/
theorem claim_C10_hash_consistent_with_equal (a b : Str)
    (h : caseInsensitiveEqual a b = true) :
    caseInsensitiveHash a = caseInsensitiveHash b :=
  foldl_hashCombine_eq a b h 0

/-- Concrete instance of claim C10 at two spellings of the
`Content-Length` header name. -/
theorem claim_C10_witness :
    caseInsensitiveEqual (str "Content-Length") (str "content-length")
        = true ∧
    caseInsensitiveHash (str "Content-Length")
        = caseInsensitiveHash (str "content-length") :=
  ⟨by decide,
   claim_C10_hash_consistent_with_equal _ _ (by decide)⟩

theorem hexValue_hexDigitUpper (x : Nat) (h : x < 16) :
    hexValue (hexDigitUpper x) = some x := by
  interval_cases x <;> rfl

theorem decode_cons_of_ne (b : Nat) (l : Str) (hb : ¬(b = 37)) :
    decode (b :: l) = (decode l).map (fun t => b :: t) := by
  cases l with
  | nil => simp [decode, hb]
  | cons a r =>
    cases r with
    | nil => simp [decode, hb]
    | cons c r2 => simp [decode, hb]

theorem isUnreserved_ne_percent (b : Nat) (h : isUnreserved b = true) :
    b ≠ 37 := by
  intro hb
  subst hb
  simp [isUnreserved] at h

/-- Claim C7: for every byte string, percent-encoding followed by
percent-decoding recovers the original string (in particular for any
string with no pre-existing percent escapes, since `encode` escapes
`%` itself). -/
theorem claim_C7_decode_encode_roundtrip (s : Str)
    (h : ∀ b ∈ s, b < 256) :
    decode (encode s) = .ok s := by
  induction s with
  | nil => rfl
  | cons b rest ih =>
    have hb : b < 256 := h b (by simp)
    have hrest : decode (encode rest) = .ok rest :=
      ih (fun c hc => h c (by simp [hc]))
    by_cases hu : isUnreserved b = true
    · have hb37 : ¬(b = 37) := isUnreserved_ne_percent b hu
      simp only [encode, if_pos hu, List.singleton_append]
      rw [decode_cons_of_ne b _ hb37, hrest]
      rfl
    · simp only [encode, if_neg hu, List.cons_append, List.nil_append]
      rw [decode, if_pos rfl]
      rw [hexValue_hexDigitUpper (b / 16) (by omega)]
      rw [hexValue_hexDigitUpper (b % 16) (by omega)]
      rw [hrest]
      have hdm : 16 * (b / 16) + b % 16 = b := by omega
      simp [Except.map, hdm]

/-- Concrete instance of claim C7 at the string `a b`. -/
theorem claim_C7_witness :
    (∀ b ∈ str "a b", b < 256) ∧
    decode (encode (str "a b")) = .ok (str "a b") :=
  ⟨by decide, claim_C7_decode_encode_roundtrip _ (by decide)⟩

theorem parseSegs_error (keys : List Str) :
    ∀ (segs : List Str) (acc : List (Str × Str)) (e : Str),
    parseSegs acc keys segs = .error e →
    ∃ i, i < keys.length ∧ i < segs.length ∧
      isBraced (keys.getD i []) = false ∧
      keys.getD i [] ≠ segs.getD i [] := by
  induction keys with
  | nil =>
    intro segs acc e hp
    simp [parseSegs] at hp
  | cons key keys ih =>
    intro segs acc e hp
    cases segs with
    | nil => simp [parseSegs] at hp
    | cons seg segs =>
      by_cases hbr : isBraced key = true
      · rw [parseSegs, if_pos hbr] at hp
        obtain ⟨i, h1, h2, h3, h4⟩ := ih segs _ e hp
        exact ⟨i + 1, by simpa using h1, by simpa using h2, by simpa using h3,
          by simpa using h4⟩
      · by_cases heq : key = seg
        · rw [parseSegs, if_neg hbr, if_pos heq] at hp
          obtain ⟨i, h1, h2, h3, h4⟩ := ih segs _ e hp
          exact ⟨i + 1, by simpa using h1, by simpa using h2,
            by simpa using h3, by simpa using h4⟩
        · refine ⟨0, by simp, by simp, ?_, by simpa using heq⟩
          simpa using hbr

/-- Claim C6: `path::parse` matches pattern against path segment by
segment and succeeds on a strict prefix: the books example yields
exactly the two-entry map; and for every pattern and path, a failure
implies a position, before either token sequence is exhausted, where a
literal (non-braced) pattern segment differs from the corresponding
path segment. -/
theorem claim_C6_parse_prefix_and_failure :
    (parsePath (str "/books/\x7bisbn\x7d/chapters/\x7bchapter\x7d")
        (str "/books/0304827484")
      = .ok [(str "books", str "books"), (str "isbn", str "0304827484")]) ∧
    (∀ pattern path e, parsePath pattern path = .error e →
      ∃ i, i < (tokenize pattern).length ∧ i < (tokenize path).length ∧
        isBraced ((tokenize pattern).getD i []) = false ∧
        (tokenize pattern).getD i [] ≠ (tokenize path).getD i []) := by
  refine ⟨by decide, ?_⟩
  intro pattern path e hp
  exact parseSegs_error (tokenize pattern) (tokenize path) [] e hp

/-- Concrete instance of the failure direction of claim C6: the
pattern `/a` does not match the path `/b`, and the mismatch is at a
literal segment. -/
theorem claim_C6_witness :
    parsePath (str "/a") (str "/b") = .error (str "a") ∧
    (∃ i, i < (tokenize (str "/a")).length ∧
      i < (tokenize (str "/b")).length ∧
      isBraced ((tokenize (str "/a")).getD i []) = false ∧
      (tokenize (str "/a")).getD i [] ≠ (tokenize (str "/b")).getD i []) :=
  ⟨by decide,
   claim_C6_parse_prefix_and_failure.2 (str "/a") (str "/b") (str "a")
     (by decide)⟩

theorem writeAll_open (cs : List Str) :
    ∀ d : PipeData, d.readEnd = ReadEndState.OPEN →
    d.writeEnd = WriteEndState.OPEN → d.reads = [] →
    (∀ c ∈ cs, c ≠ []) →
    writeAll d cs = { d with writes := d.writes ++ cs } := by
  induction cs with
  | nil => intro d h1 h2 h3 h4; simp [writeAll]
  | cons c rest ih =>
    intro d h1 h2 h3 h4
    have hc : c ≠ [] := h4 c (by simp)
    have hw : (pipeWrite d c).2 = { d with writes := d.writes ++ [c] } := by
      simp [pipeWrite, h1, h2, h3, hc]
    rw [writeAll, hw]
    rw [ih _ (by simp [h1]) (by simp [h2]) (by simp [h3])
      (fun x hx => h4 x (by simp [hx]))]
    simp

theorem readN_eof (m : Nat) :
    ∀ d : PipeData, d.readEnd = ReadEndState.OPEN →
    d.writeEnd = WriteEndState.CLOSED → d.writes = [] →
    (readN m d).1 = List.replicate m (ReadOutcome.chunk []) := by
  induction m with
  | zero => intro d _ _ _; rfl
  | succ m ih =>
    intro d h1 h2 h3
    have hr : pipeRead d = (ReadOutcome.chunk [], d) := by
      simp [pipeRead, h1, h2, h3]
    rw [readN]
    simp [hr, ih d h1 h2 h3, List.replicate_succ]

theorem readN_drain (ws : List Str) :
    ∀ (m : Nat) (d : PipeData), d.readEnd = ReadEndState.OPEN →
    d.writeEnd = WriteEndState.CLOSED → d.writes = ws →
    (readN (ws.length + m) d).1
      = ws.map ReadOutcome.chunk ++ List.replicate m (ReadOutcome.chunk []) := by
  induction ws with
  | nil => intro m d h1 h2 h3; simpa using readN_eof m d h1 h2 h3
  | cons w ws ih =>
    intro m d h1 h2 h3
    have hlen : (w :: ws).length + m = (ws.length + m) + 1 := by
      simp [List.length_cons]
      omega
    have hr : pipeRead d = (ReadOutcome.chunk w, { d with writes := ws }) := by
      simp [pipeRead, h1, h3]
    have hih := ih m { d with writes := ws } h1 h2 rfl
    rw [hlen, readN]
    simp only [hr, List.map_cons, List.cons_append]
    simpa using hih

/-- Claim C2: writing the non-empty chunks `cs` into a fresh Pipe and
then closing the writer lets the reader read back exactly `cs`, in
write order, after which every further read returns the empty chunk
(end-of-stream is repeatable and not a failure). -/
theorem claim_C2_pipe_fifo_and_repeatable_eof (cs : List Str) (m : Nat)
    (h : ∀ c ∈ cs, c ≠ []) :
    (readN (cs.length + m) (pipeWriterClose (writeAll freshPipe cs)).2).1
      = cs.map ReadOutcome.chunk
          ++ List.replicate m (ReadOutcome.chunk []) := by
  have h1 : writeAll freshPipe cs = { freshPipe with writes := cs } := by
    simpa using writeAll_open cs freshPipe rfl rfl rfl h
  have h2 : (pipeWriterClose { freshPipe with writes := cs }).2
      = { freshPipe with writes := cs, writeEnd := WriteEndState.CLOSED } := by
    cases cs <;> simp [pipeWriterClose, freshPipe]
  rw [h1, h2]
  exact readN_drain cs m _ rfl rfl rfl

/-- Concrete instance of claim C2: chunks `a` then `b`, then two
end-of-stream reads. -/
theorem claim_C2_witness :
    (∀ c ∈ [str "a", str "b"], c ≠ []) ∧
    (readN ([str "a", str "b"].length + 2)
        (pipeWriterClose (writeAll freshPipe [str "a", str "b"])).2).1
      = [str "a", str "b"].map ReadOutcome.chunk
          ++ List.replicate 2 (ReadOutcome.chunk []) :=
  ⟨by decide,
   claim_C2_pipe_fifo_and_repeatable_eof [str "a", str "b"] 2 (by decide)⟩

theorem pipeWrite_readerClosure (d : PipeData) (s : Str) :
    (pipeWrite d s).2.readerClosure = d.readerClosure := by
  obtain ⟨re, we, rds, ws, rc, fl, np, sr⟩ := d
  simp only [pipeWrite]
  split_ifs <;> first | rfl | (cases rds <;> rfl)

theorem pipeWriterClose_readerClosure (d : PipeData) :
    (pipeWriterClose d).2.readerClosure = d.readerClosure := by
  obtain ⟨re, we, rds, ws, rc, fl, np, sr⟩ := d
  simp only [pipeWriterClose]
  split_ifs <;> first | rfl | (cases rds <;> cases ws <;> rfl)

theorem pipeWriterFail_readerClosure (d : PipeData) (msg : Str) :
    (pipeWriterFail d msg).2.readerClosure = d.readerClosure := by
  obtain ⟨re, we, rds, ws, rc, fl, np, sr⟩ := d
  simp only [pipeWriterFail]
  split_ifs <;> first | rfl | (cases rds <;> rfl)

theorem pipeRead_readerClosure (d : PipeData) :
    (pipeRead d).2.readerClosure = d.readerClosure := by
  obtain ⟨re, we, rds, ws, rc, fl, np, sr⟩ := d
  simp only [pipeRead]
  split_ifs <;> first | rfl | (cases ws <;> cases we <;> rfl)

/-- Claim C5: across every Pipe operation, the reader-closed future is
settled after the step exactly when it was already settled or the step
is the reader closing while both ends are still OPEN (so it settles
exactly once, precisely at the OPEN-to-CLOSED transition of the read
end under an OPEN write end, and never settles when the writer closed
or failed first); moreover once the read end is CLOSED every write
returns false and leaves the state unchanged. -/
theorem claim_C5_reader_closed_once_and_write_rejected :
    ∀ (op : PipeOp) (d : PipeData) (c : Str),
    ((pipeApply op d).readerClosure = true ↔
      (d.readerClosure = true ∨
        (op = PipeOp.readerClose ∧ d.readEnd = ReadEndState.OPEN ∧
          d.writeEnd = WriteEndState.OPEN))) ∧
    (d.readEnd = ReadEndState.CLOSED → pipeWrite d c = (false, d)) := by
  intro op d c
  constructor
  · cases op with
    | write s => simp [pipeApply, pipeWrite_readerClosure]
    | writerClose => simp [pipeApply, pipeWriterClose_readerClosure]
    | writerFail msg => simp [pipeApply, pipeWriterFail_readerClosure]
    | readOp => simp [pipeApply, pipeRead_readerClosure]
    | readerClose =>
      obtain ⟨re, we, rds, ws, rc, fl, np, sr⟩ := d
      cases re <;> cases we <;> simp [pipeApply, pipeReaderClose]
  · intro h
    simp [pipeWrite, h]

/-- Concrete instance of claim C5: a fresh Pipe whose reader closes. -/
theorem claim_C5_witness :
    ((pipeApply PipeOp.readerClose freshPipe).readerClosure = true ↔
      (freshPipe.readerClosure = true ∨
        (PipeOp.readerClose = PipeOp.readerClose ∧
          freshPipe.readEnd = ReadEndState.OPEN ∧
          freshPipe.writeEnd = WriteEndState.OPEN))) ∧
    (freshPipe.readEnd = ReadEndState.CLOSED →
      pipeWrite freshPipe (str "x") = (false, freshPipe)) :=
  claim_C5_reader_closed_once_and_write_rejected
    PipeOp.readerClose freshPipe (str "x")

/-- Claim C3: disconnecting fails exactly the pending completions, in
FIFO order, each with the same ConnectionClosed reason; it empties the
pending queue, settles the `disconnected()` future, and writes nothing
to the socket; a send issued afterwards fails immediately, writes
nothing to the socket and queues nothing (the state is unchanged). -/
theorem claim_C3_disconnect_fails_pending_fifo :
    ∀ d : ConnData,
    (connDisconnect d).failedSends
        = d.failedSends ++ d.pending.map (fun p => (p, connectionClosedMsg)) ∧
    (connDisconnect d).pending = [] ∧
    (connDisconnect d).disconnectedSettled = true ∧
    (connDisconnect d).socketWrites = d.socketWrites ∧
    (connSend (connDisconnect d)).1
        = SendResult.failedNow connectionClosedMsg ∧
    (connSend (connDisconnect d)).2 = connDisconnect d := by
  intro d
  exact ⟨rfl, rfl, rfl, rfl, rfl, rfl⟩

theorem connInv_step (d : ConnData) (e : ConnEvent) (h : connInv d)
    (he : e = ConnEvent.response → d.pending ≠ []) :
    connInv (connStep d e) := by
  obtain ⟨h1, h2, h3⟩ := h
  cases e with
  | send =>
    cases hs : d.state with
    | DISCONNECTED =>
      simpa [connStep, connSend, hs] using ⟨h1, h2, h3⟩
    | CONNECTED =>
      refine ⟨by simpa [connStep, connSend, hs] using h1, ?_, ?_⟩
      · have hcount : d.nextSend + 1 - d.nextResponse
            = (d.nextSend - d.nextResponse) + 1 := by omega
        have hlast : d.nextResponse + (d.nextSend - d.nextResponse)
            = d.nextSend := by omega
        simp only [connStep, connSend, hs]
        rw [h2, hcount, List.range'_concat]
        simp only [one_mul]
        rw [hlast]
      · simp only [connStep, connSend, hs]
        omega
  | response =>
    have hp : d.pending ≠ [] := he rfl
    have hlt : d.nextResponse < d.nextSend := by
      by_contra hc
      have : d.nextSend - d.nextResponse = 0 := by omega
      rw [h2, this] at hp
      simp [List.range'] at hp
    have hcount : d.nextSend - d.nextResponse
        = (d.nextSend - (d.nextResponse + 1)) + 1 := by omega
    have hpend : d.pending = d.nextResponse ::
        List.range' (d.nextResponse + 1) (d.nextSend - (d.nextResponse + 1)) := by
      rw [h2, hcount, List.range'_succ]
    refine ⟨?_, ?_, ?_⟩
    · simp only [connStep, connReceiveResponse, hpend]
      rw [h1, List.range_succ, List.map_append]
      simp
    · simp only [connStep, connReceiveResponse, hpend]
    · simp only [connStep, connReceiveResponse, hpend]
      omega

theorem wfTrace_cons (d : ConnData) (e : ConnEvent) (es : List ConnEvent) :
    wfTrace d (e :: es) =
      ((match e with
        | ConnEvent.send => true
        | ConnEvent.response => !d.pending.isEmpty) &&
        wfTrace (connStep d e) es) := by
  cases e <;> rfl

theorem connInv_run (es : List ConnEvent) :
    ∀ d : ConnData, connInv d → wfTrace d es = true →
    connInv (connRun d es) := by
  induction es with
  | nil => intro d h _; exact h
  | cons e es ih =>
    intro d h hwf
    rw [wfTrace_cons, Bool.and_eq_true] at hwf
    rw [connRun]
    refine ih _ (connInv_step d e h ?_) hwf.2
    intro he hnil
    subst he
    have h1 := hwf.1
    rw [hnil] at h1
    simp at h1

/-- Claim C1: along every well-formed trace of sends and response
arrivals, the Connection resolves completions in strict FIFO send
order: the k-th resolved completion pairs the k-th send with the k-th
response parsed from the socket, for every k. -/
theorem claim_C1_pipelining_fifo (es : List ConnEvent)
    (h : wfTrace freshConn es = true) :
    (connRun freshConn es).resolved
      = (List.range (connRun freshConn es).nextResponse).map
          (fun i => (i, i)) :=
  (connInv_run es freshConn ⟨rfl, rfl, Nat.le_refl 0⟩ h).1

/-- Concrete instance of claim C1: two pipelined sends followed by two
responses resolve send 0 with response 0 and send 1 with response 1. -/
theorem claim_C1_witness :
    wfTrace freshConn [ConnEvent.send, ConnEvent.send,
      ConnEvent.response, ConnEvent.response] = true ∧
    (connRun freshConn [ConnEvent.send, ConnEvent.send,
        ConnEvent.response, ConnEvent.response]).resolved
      = (List.range (connRun freshConn [ConnEvent.send, ConnEvent.send,
          ConnEvent.response, ConnEvent.response]).nextResponse).map
          (fun i => (i, i)) :=
  ⟨by decide, claim_C1_pipelining_fifo _ (by decide)⟩

end LibprocessHttp
